import Mathlib

/-!
# Verification of the Monte Carlo trading-simulation engine

Shallow embedding of the Monte Carlo simulation components of the
Polymarket trading repository (`monte_carlo/simulator.py`,
`monte_carlo/market_simulator.py`, `monte_carlo/strategy_generator.py`).

The bot/portfolio model (`StrategyConfig`, `SimulatedTrade`, `BotState` and
the operations `execute_buy`, `close_trade`, `resolve_all`) is embedded over
`ℚ`: the Python code computes with floats, and we read its arithmetic at the
level of exact rational/real numbers.  The market price process
(`simulate_price_movement`, `resolve_market`) and the growth score
(`compute_g`) need `Real.sqrt` / `Real.log`, so they are embedded over `ℝ`.
Randomness (`np.random.normal`, `random.uniform`, `random.random`) is made
explicit: each embedded operation takes the drawn values as arguments (a
standard-normal draw `z` stands for `np.random.normal(0, σ) = σ·z`).
-/

namespace MC

/-! ## Strategy configuration (`strategy_generator.py`, `StrategyConfig`) -/

/-- Parameter bundle of one bot strategy (`StrategyConfig` dataclass,
`strategy_generator.py` lines 19-70).  String-valued metadata (`name`,
`description`) is dropped; `strategy_type` is kept because the generator and
the results aggregator group by it. -/
structure StrategyConfig where
  id : Nat := 0
  initial_capital : ℚ := 200
  max_position_size : ℚ := 50
  max_position_pct : ℚ := 15/100
  stop_loss_pct : ℚ := 20/100
  take_profit_pct : ℚ := 40/100
  swing_enabled : Bool := true
  swing_take_profit_pct : ℚ := 12/100
  swing_stop_loss_pct : ℚ := 8/100
  min_g_score : ℚ := 3/10000
  min_expected_roi : ℚ := 5/100
  min_confidence : ℚ := 50/100
  high_confidence : ℚ := 70/100
  min_price : ℚ := 5/100
  max_price : ℚ := 80/100
  min_volume : ℚ := 1000
  min_liquidity : ℚ := 500
  min_days : ℚ := 1/10
  max_days : ℚ := 180
  prefer_short_term : Bool := false
  max_positions : Nat := 30
  max_swing_positions : Nat := 15
  max_long_positions : Nat := 20
  test_trade_enabled : Bool := true
  test_trade_size : ℚ := 10
  max_slippage_pct : ℚ := 3
  strategy_type : String := "balanced"
deriving DecidableEq

/-! ## Trades and bot state (`simulator.py`) -/

/-- Exit reason recorded on a closed trade (`exit_reason` strings in
`simulator.py`). -/
inductive ExitReason
  | take_profit
  | stop_loss
  | resolution
  | simulation_end
deriving DecidableEq

/-- An open trade (`SimulatedTrade` dataclass, `simulator.py` lines 25-45,
entry-side fields; the exit-side fields are recorded in `ClosedTrade` when
the trade closes).  Trade and market ids are embedded as `Nat`. -/
structure SimulatedTrade where
  tid : Nat
  market_id : Nat
  entry_price : ℚ
  shares : ℚ
  cost : ℚ
deriving DecidableEq

/-- A closed trade: the entry data plus the exit fields that
`_close_trade` fills in (`simulator.py` lines 442-456). -/
structure ClosedTrade where
  trade : SimulatedTrade
  exit_price : ℚ
  exit_reason : ExitReason
  pnl : ℚ
  pnl_pct : ℚ
deriving DecidableEq

/-- State of one simulated bot (`BotState` dataclass, `simulator.py`
lines 67-90).  The `open_trades` dict keyed by trade id is embedded as a
list; id lookup uses `List.find?`/`List.eraseP`, which agrees with the dict
semantics (at most one entry per key is removed). -/
structure BotState where
  id : Nat := 0
  strategy : StrategyConfig := {}
  initial_capital : ℚ := 200
  cash_balance : ℚ := 200
  open_trades : List SimulatedTrade := []
  closed_trades : List ClosedTrade := []
  total_trades : Nat := 0
  winning_trades : Nat := 0
  losing_trades : Nat := 0
  total_pnl : ℚ := 0
  peak_value : ℚ := 0
  max_drawdown : ℚ := 0
  trade_counter : Nat := 0
deriving DecidableEq

/-- `BotState.portfolio_value` property (`simulator.py` lines 92-96):
`open_value = sum(t.shares * t.entry_price for t in self.open_trades.values())`
and the result is `cash_balance + open_value`. -/
def portfolio_value (b : BotState) : ℚ :=
  b.cash_balance + (b.open_trades.map (fun t => t.shares * t.entry_price)).sum

/-- Modelled from the spec (refinement comparison for the portfolio-value
claim): "portfolio value = cash + Σ(open trade shares × current market
price)".  `prices` maps a market id to that market's current price. -/
def spec_portfolio_value (prices : Nat → ℚ) (b : BotState) : ℚ :=
  b.cash_balance + (b.open_trades.map (fun t => t.shares * prices t.market_id)).sum

/-! ## Position maintenance (`simulator.py`, `_update_bot_positions`) -/

/-- Reason queued when a position crosses a threshold. -/
inductive CloseReason
  | take_profit
  | stop_loss
deriving DecidableEq

/-- The per-trade close decision of `_update_bot_positions` for an
unresolved market (`simulator.py` lines 417-424): compute
`unrealized_pnl_pct = (current_price - entry_price) / entry_price`, queue a
take-profit close when it is `>= strategy.take_profit_pct`, else a stop-loss
close when it is `<= -strategy.stop_loss_pct`.  The code reads only
`take_profit_pct` / `stop_loss_pct`; no field of the trade other than its
prices enters the decision (a `SimulatedTrade` has no trade-type field). -/
def tick_close_decision (s : StrategyConfig) (entry_price current_price : ℚ) :
    Option CloseReason :=
  let unrealized_pnl_pct := (current_price - entry_price) / entry_price
  if s.take_profit_pct ≤ unrealized_pnl_pct then some CloseReason.take_profit
  else if unrealized_pnl_pct ≤ -s.stop_loss_pct then some CloseReason.stop_loss
  else none

/-- Trade type named by the spec ("swing" vs "long" trade types). -/
inductive TradeType
  | swing
  | long
deriving DecidableEq

/-- Modelled from the spec (refinement comparison for the threshold claim):
"queue a close if it has crossed the strategy's take-profit or stop-loss
threshold (strategy-specific thresholds differ for \"swing\" vs \"long\"
trade types — swing trades use tighter, faster thresholds)": swing trades
use `swing_take_profit_pct` / `swing_stop_loss_pct`, long trades use
`take_profit_pct` / `stop_loss_pct`. -/
def spec_close_decision (s : StrategyConfig) (ty : TradeType)
    (entry_price current_price : ℚ) : Option CloseReason :=
  let tp := match ty with
    | TradeType.swing => s.swing_take_profit_pct
    | TradeType.long => s.take_profit_pct
  let sl := match ty with
    | TradeType.swing => s.swing_stop_loss_pct
    | TradeType.long => s.stop_loss_pct
  let unrealized_pnl_pct := (current_price - entry_price) / entry_price
  if tp ≤ unrealized_pnl_pct then some CloseReason.take_profit
  else if unrealized_pnl_pct ≤ -sl then some CloseReason.stop_loss
  else none

/-! ## Closing a trade (`simulator.py`, `_close_trade`) -/

/-- Exchange-fee constant (`MonteCarloSimulator.EXCHANGE_FEE = 0.02`,
`simulator.py` line 212). -/
def EXCHANGE_FEE : ℚ := 2/100

/-- The proceeds credited when a trade exits at `exit_price`
(`simulator.py` lines 447-453): `proceeds = shares * exit_price`, then
`if exit_price > entry_price: proceeds -= proceeds * EXCHANGE_FEE`. -/
def close_proceeds (t : SimulatedTrade) (exit_price : ℚ) : ℚ :=
  let proceeds := t.shares * exit_price
  if t.entry_price < exit_price then proceeds - proceeds * EXCHANGE_FEE else proceeds

/-- The realized pnl of a closing trade (`simulator.py` line 455):
`trade.pnl = proceeds - trade.cost`. -/
def trade_pnl (t : SimulatedTrade) (exit_price : ℚ) : ℚ :=
  close_proceeds t exit_price - t.cost

/-- `_close_trade` (`simulator.py` lines 430-467): if `trade_id` is not an
open trade the call is a no-op; otherwise the trade is popped from
`open_trades`, proceeds (fee-adjusted on profitable exits) are credited to
cash, pnl is accumulated, and exactly one of the win/loss counters is
incremented (`pnl > 0` counts as a win, otherwise a loss). -/
def close_trade (b : BotState) (trade_id : Nat) (exit_price : ℚ)
    (reason : ExitReason) : BotState :=
  match b.open_trades.find? (fun u => u.tid == trade_id) with
  | none => b
  | some t =>
    let proceeds := close_proceeds t exit_price
    let pnl := trade_pnl t exit_price
    let pnl_pct := if 0 < t.cost then pnl / t.cost * 100 else 0
    { b with
      open_trades := b.open_trades.eraseP (fun u => u.tid == trade_id)
      cash_balance := b.cash_balance + proceeds
      total_pnl := b.total_pnl + pnl
      winning_trades := if 0 < pnl then b.winning_trades + 1 else b.winning_trades
      losing_trades := if 0 < pnl then b.losing_trades else b.losing_trades + 1
      closed_trades := b.closed_trades ++ [⟨t, exit_price, reason, pnl, pnl_pct⟩] }

/-! ## Buying (`simulator.py`, `_execute_buy`) -/

/-- The position value chosen by `_execute_buy` (`simulator.py`
lines 617-627): a test-trade-sized position when test trades are enabled and
confidence is below `high_confidence`, otherwise the regular sizing rule. -/
def position_value (b : BotState) (s : StrategyConfig) (confidence : ℚ) : ℚ :=
  let is_high_confidence := s.high_confidence ≤ confidence
  if s.test_trade_enabled && !is_high_confidence then
    min s.test_trade_size (b.cash_balance * (5/100))
  else
    min s.max_position_size (b.cash_balance * s.max_position_pct)

/-- `_execute_buy` (`simulator.py` lines 614-656): size the position; reject
(returning the state unchanged) when `position_value < 5` or
`position_value > cash_balance`; otherwise apply slippage (the drawn uniform
value is the `slippage` argument), cap the fill price at `0.99`, open the
trade, debit cash and increment `total_trades`. -/
def execute_buy (b : BotState) (s : StrategyConfig) (market_price : ℚ)
    (market_id : Nat) (confidence slippage : ℚ) : BotState :=
  let pv := position_value b s confidence
  if pv < 5 ∨ b.cash_balance < pv then b
  else
    let actual_price := min (99/100) (market_price * (1 + slippage))
    let shares := pv / actual_price
    { b with
      trade_counter := b.trade_counter + 1
      open_trades := b.open_trades ++
        [{ tid := b.trade_counter + 1, market_id := market_id,
           entry_price := actual_price, shares := shares, cost := pv }]
      cash_balance := b.cash_balance - pv
      total_trades := b.total_trades + 1 }

/-! ## End-of-simulation liquidation (`simulator.py`, `_resolve_all_positions`) -/

/-- `_resolve_all_positions`, restricted to one bot (`simulator.py`
lines 658-677): snapshot the open trade ids, then close each through the
same `_close_trade` path with reason `simulation_end`.  `exit_of` abstracts
the per-trade exit-price lookup (resolution value of a resolved market,
else the market's current price, else the entry price). -/
def resolve_all (b : BotState) (exit_of : Nat → ℚ) : BotState :=
  (b.open_trades.map (fun t => t.tid)).foldl
    (fun s tid => close_trade s tid (exit_of tid) ExitReason.simulation_end) b

/-! ## Bot runs: sequences of buy/close events -/

/-- One bot-affecting event of the simulation loop: a buy attempt (with the
market data and random draws it consumed) or a close of one open trade. -/
inductive BotOp
  | buy (s : StrategyConfig) (market_price : ℚ) (market_id : Nat)
      (confidence slippage : ℚ)
  | close (trade_id : Nat) (exit_price : ℚ) (reason : ExitReason)
deriving DecidableEq

/-- Apply one event to a bot state. -/
def apply_op (b : BotState) : BotOp → BotState
  | BotOp.buy s mp mid conf slip => execute_buy b s mp mid conf slip
  | BotOp.close tid e r => close_trade b tid e r

/-- Run a bot through a sequence of events. -/
def run (b : BotState) (ops : List BotOp) : BotState :=
  ops.foldl apply_op b

/-- Well-formedness of an event, reflecting what the engine feeds the two
operations: market prices are positive (the market simulator clamps prices
to `[0.01, 0.99]`), slippage draws are from `uniform(0, max_slippage/100)`,
and exit prices are non-negative (a clamped market price or a settlement
value in `{0, 1}`). -/
def WFOp : BotOp → Prop
  | BotOp.buy _ mp _ _ slip => 0 < mp ∧ 0 ≤ slip
  | BotOp.close _ e _ => 0 ≤ e

instance : DecidablePred WFOp := fun op => by
  cases op <;> simp only [WFOp] <;> infer_instance

/-! ## Entry metrics (`simulator.py`, `_compute_g` and
`_calculate_confidence`) -/

/-- `_compute_g` (`simulator.py` lines 556-567) with its default
`lambda_days = 1.0`: `None` when `price <= 0`, `price >= 1` or
`resolution_days <= 0`; also `None` when `resolution_days + 1 <= 0`
(a guard kept from the source even though it can never fire after the first
one); else `log1p(r) / (resolution_days + 1)` with
`r = (1 - EXCHANGE_FEE) * (1 - price) / price`. -/
noncomputable def compute_g (price resolution_days : ℝ) : Option ℝ :=
  if price ≤ 0 ∨ 1 ≤ price ∨ resolution_days ≤ 0 then none
  else
    let r := (1 - (2/100 : ℝ)) * ((1 - price) / price)
    let denom := resolution_days + 1
    if denom ≤ 0 then none
    else some (Real.log (1 + r) / denom)

/-- Volume tier bonus of `_calculate_confidence` (`simulator.py`
lines 580-586). -/
def volume_bonus (volume : ℚ) : ℚ :=
  if 50000 < volume then 10/100
  else if 10000 < volume then 6/100
  else if 5000 < volume then 3/100
  else 0

/-- Liquidity tier bonus (`simulator.py` lines 588-592). -/
def liquidity_bonus (liquidity : ℚ) : ℚ :=
  if 5000 < liquidity then 8/100
  else if 1000 < liquidity then 4/100
  else 0

/-- Price mid-range bonus (`simulator.py` lines 594-598). -/
def price_bonus (price : ℚ) : ℚ :=
  if 20/100 ≤ price ∧ price ≤ 70/100 then 8/100
  else if 10/100 ≤ price ∧ price ≤ 85/100 then 4/100
  else 0

/-- Resolution-time bonus (`simulator.py` lines 600-604). -/
def time_bonus (resolution_days : ℚ) : ℚ :=
  if 7 ≤ resolution_days ∧ resolution_days ≤ 30 then 8/100
  else if 3 ≤ resolution_days ∧ resolution_days ≤ 60 then 4/100
  else 0

/-- Growth-score bonus (`simulator.py` lines 606-610). -/
def g_bonus (g_score : ℚ) : ℚ :=
  if 1/100 < g_score then 5/100
  else if 5/1000 < g_score then 3/100
  else 0

/-- `_calculate_confidence` (`simulator.py` lines 569-612): start from the
base score 0.5, add the five tier bonuses, cap with `min(score, 0.95)`. -/
def calculate_confidence (price volume liquidity resolution_days g_score : ℚ) : ℚ :=
  min (1/2 + volume_bonus volume + liquidity_bonus liquidity + price_bonus price
        + time_bonus resolution_days + g_bonus g_score) (95/100)

/-! ## Market model (`market_simulator.py`) -/

/-- `MarketOutcome` enum (`market_simulator.py` lines 21-25). -/
inductive MarketOutcome
  | yes_wins
  | no_wins
  | unresolved
deriving DecidableEq

/-- `PriceMovementType` enum (`market_simulator.py` lines 28-36). -/
inductive PriceMovementType
  | drift_up
  | drift_down
  | mean_revert
  | volatile
  | stable
  | spike_up
  | spike_down
deriving DecidableEq

/-- Market category (`MarketSimulator.CATEGORIES` keys,
`market_simulator.py` lines 140-149). -/
inductive Category
  | sports
  | politics
  | crypto
  | entertainment
  | finance
  | technology
  | world_events
  | other
deriving DecidableEq

/-- The `volatility` entry of each category's parameter record
(`market_simulator.py` lines 140-149). -/
noncomputable def category_volatility : Category → ℝ
  | Category.sports => 3/10
  | Category.politics => 2/10
  | Category.crypto => 5/10
  | Category.entertainment => 25/100
  | Category.finance => 35/100
  | Category.technology => 4/10
  | Category.world_events => 45/100
  | Category.other => 3/10

/-- The mutable state of a `SimulatedMarket` (`market_simulator.py`
lines 39-82) that `simulate_price_movement` reads or writes.  Times are
real numbers (the code only uses differences and ratios of timestamps, so
the unit is irrelevant); the price history stores `(time, price)` pairs. -/
structure MarketState where
  current_price : ℝ
  current_volume : ℝ
  current_liquidity : ℝ
  initial_volume : ℝ
  initial_liquidity : ℝ
  start_time : ℝ
  end_time : ℝ
  resolved : Bool
  final_outcome : MarketOutcome
  resolution_time : Option ℝ
  price_history : List (ℝ × ℝ)
  movement_type : PriceMovementType
  category : Category

/-- The random draws one call of `simulate_price_movement` may consume,
passed in explicitly: `z` is the standard-normal draw behind
`np.random.normal(0, step_volatility) = step_volatility * z`; the other
fields are the values returned by the corresponding `random.random()` /
`random.uniform(...)` calls. -/
structure Rand where
  z : ℝ
  spike_roll : ℝ
  spike_mag : ℝ
  res_noise : ℝ
  res_roll : ℝ
  vol_delta : ℝ
  liq_delta : ℝ

/-- Python's `round(x, 4)` on the new price (`market_simulator.py`
line 387), embedded as rounding to the nearest multiple of `10⁻⁴` (Python
rounds ties to even; ties are immaterial to every claim below). -/
noncomputable def round4 (x : ℝ) : ℝ := (round (x * 10000) : ℤ) / 10000

/-- `_resolve_market` (`market_simulator.py` lines 400-421): mark resolved,
record the resolution time, perturb the final price by the drawn noise,
clamp to `[0.05, 0.95]`, and settle YES_WINS (price 1.0) when the Bernoulli
roll is below the effective probability, else NO_WINS (price 0.0). -/
noncomputable def resolve_market (m : MarketState) (resolution_time : ℝ)
    (r : Rand) : MarketState :=
  let final_price := m.current_price
  let effective_probability := max (5/100) (min (95/100) (final_price + r.res_noise))
  if r.res_roll < effective_probability then
    { m with resolved := true, resolution_time := some resolution_time,
             final_outcome := MarketOutcome.yes_wins, current_price := 1 }
  else
    { m with resolved := true, resolution_time := some resolution_time,
             final_outcome := MarketOutcome.no_wins, current_price := 0 }

/-- The pre-drift step volatility of `simulate_price_movement`
(`market_simulator.py` lines 349-357): category volatility × 0.1, scaled to
the step length and by the time factor
`1 + (1 - time_remaining/total_time) * 0.5`. -/
noncomputable def step_volatility (m : MarketState) (current_time time_step_hours : ℝ) : ℝ :=
  let time_remaining := m.end_time - current_time
  let total_time := m.end_time - m.start_time
  let time_factor := 1 + (1 - time_remaining / total_time) * (5/10)
  let daily_volatility := category_volatility m.category * (1/10)
  let hourly_volatility := daily_volatility / Real.sqrt 24
  hourly_volatility * Real.sqrt time_step_hours * time_factor

/-- `simulate_price_movement` (`market_simulator.py` lines 321-398).
Resolved markets return immediately with no state change; a market past its
end time resolves; otherwise the random shock is drawn first
(`random_change = np.random.normal(0, step_volatility)`, embedded as
`step_volatility * z`), and only then does the movement-type dispatch run:
it sets the drift, and for `VOLATILE` it reassigns
`step_volatility *= 1.5` — *after* the draw, so the reassigned value (bound
here to `step_volatility_after_draw`, mirroring source line 372) is never
used by anything.  The new price is `old + drift + random_change` clamped to
`[0.01, 0.99]` and rounded to 4 decimals; volume and liquidity take bounded
random-walk steps floored at 100 and 50. -/
noncomputable def simulate_price_movement (m : MarketState)
    (current_time time_step_hours : ℝ) (r : Rand) : MarketState :=
  if m.resolved then m
  else if m.end_time ≤ current_time then resolve_market m current_time r
  else
    let old_price := m.current_price
    let sv := step_volatility m current_time time_step_hours
    let random_change := sv * r.z
    let step_volatility_after_draw :=
      if m.movement_type = PriceMovementType.volatile then sv * (3/2) else sv
    let drift : ℝ :=
      match m.movement_type with
      | PriceMovementType.drift_up => (2/1000) * time_step_hours
      | PriceMovementType.drift_down => -(2/1000) * time_step_hours
      | PriceMovementType.mean_revert => (1/2 - old_price) * (1/100) * time_step_hours
      | PriceMovementType.volatile => 0
      | PriceMovementType.stable => 0
      | PriceMovementType.spike_up =>
          if r.spike_roll < 5/100 then r.spike_mag else 0
      | PriceMovementType.spike_down =>
          if r.spike_roll < 5/100 then r.spike_mag else 0
    let new_price := max (1/100) (min (99/100) (old_price + drift + random_change))
    let _ := step_volatility_after_draw
    { m with
      current_price := round4 new_price
      price_history := m.price_history ++ [(current_time, round4 new_price)]
      current_volume :=
        max 100 (m.current_volume + r.vol_delta * m.initial_volume * time_step_hours / 24)
      current_liquidity :=
        max 50 (m.current_liquidity + r.liq_delta * m.initial_liquidity * time_step_hours / 24) }

/-! ## Strategy generation (`strategy_generator.py`, `generate_strategies`) -/

/-- The archetype table keys in definition order
(`StrategyGenerator.ARCHETYPES`, `strategy_generator.py` lines 110-194;
Python dicts preserve insertion order, so `list(self.ARCHETYPES.keys())`
yields exactly this list). -/
def ARCHETYPE_NAMES : List String :=
  ["aggressive", "conservative", "balanced", "momentum",
   "value", "scalper", "high_roller", "diversifier"]

/-- Instance counts per archetype (`strategy_generator.py` lines 221-230):
`base = count // num_archetypes`, `extras = count % num_archetypes`, and
archetype `i` receives `base + 1` when `i < extras`, else `base`. -/
def per_archetype_counts (count : Nat) : List Nat :=
  let n := ARCHETYPE_NAMES.length
  let base := count / n
  let extras := count % n
  (List.range n).map (fun i => base + if i < extras then 1 else 0)

/-- The post-shuffle reindex (`strategy_generator.py` lines 244-247):
`for i, strategy in enumerate(strategies): strategy.id = i + 1`, embedded as
a rebuild assigning ids `k, k+1, ...` (called with `k = 1`).  The same
recursion also models the sequential pre-shuffle `strategy_id` assignment of
lines 226-239. -/
def reindex_from (k : Nat) : List StrategyConfig → List StrategyConfig
  | [] => []
  | s :: rest => { s with id := k } :: reindex_from (k + 1) rest

/-- `generate_strategies` (`strategy_generator.py` lines 209-248).  The
random per-field sampling of `_generate_single_strategy` is abstracted by
the oracle `gen archetype variation_index`; the fields that
`_generate_single_strategy` sets deterministically (`strategy_type` to the
archetype, `id` to the running counter) are overridden explicitly, exactly
as the source does.  `random.shuffle` is abstracted by the `shuffle`
argument (a permutation, see the hypothesis of the theorem below).  After
the shuffle, ids are reassigned `1..count`. -/
def generate_strategies (gen : String → Nat → StrategyConfig)
    (shuffle : List StrategyConfig → List StrategyConfig) (count : Nat) :
    List StrategyConfig :=
  let blocks := (ARCHETYPE_NAMES.zip (per_archetype_counts count)).flatMap
    (fun p => (List.range p.2).map (fun j => { gen p.1 j with strategy_type := p.1 }))
  let strategies := reindex_from 1 blocks
  reindex_from 1 (shuffle strategies)

/-! ## Concrete instances used by witnesses and counterexamples -/

/-- A concrete open trade: 10 shares bought at 0.50 for a cost of 5. -/
def tradeA : SimulatedTrade :=
  { tid := 1, market_id := 0, entry_price := 1/2, shares := 10, cost := 5 }

/-- A concrete bot holding `tradeA` with 100 in cash. -/
def botA : BotState := { cash_balance := 100, open_trades := [tradeA] }

/-- A concrete price map: every market currently trades at 0.70 (so
market 0 has moved from `tradeA`'s entry price 0.50 to 0.70). -/
def pricesA : Nat → ℚ := fun _ => 7/10

/-- A concrete price map pinning every market at 0.50 (entry price of
`tradeA`). -/
def pricesEntry : Nat → ℚ := fun _ => 1/2

/-- A strategy whose regular sizing rule can ask for more than the bot's
cash: `max_position_pct = 2` with test trades disabled. -/
def strategyB : StrategyConfig :=
  { test_trade_enabled := false, max_position_size := 50, max_position_pct := 2 }

/-- A bot with only 10 in cash (so `strategyB` sizes a 20 position). -/
def botB : BotState := { cash_balance := 10 }

/-- A concrete event sequence: one buy (market price 0.50, confidence 1,
no slippage) followed by one close at exit price 1. -/
def opsA : List BotOp :=
  [BotOp.buy {} (1/2) 0 1 0, BotOp.close 1 1 ExitReason.resolution]

/-- Random draws that are all zero. -/
noncomputable def randZero : Rand :=
  { z := 0, spike_roll := 0, spike_mag := 0, res_noise := 0, res_roll := 0,
    vol_delta := 0, liq_delta := 0 }

/-- Random draws with a standard-normal draw of exactly one sigma. -/
noncomputable def randUnit : Rand :=
  { z := 1, spike_roll := 0, spike_mag := 0, res_noise := 0, res_roll := 0,
    vol_delta := 0, liq_delta := 0 }

/-- A concrete unresolved market with the `volatile` movement archetype,
observed at its start time: price 0.50, category `other`
(volatility 0.3), lifetime 100 hours. -/
noncomputable def marketVolatile : MarketState :=
  { current_price := 1/2, current_volume := 1000, current_liquidity := 100,
    initial_volume := 1000, initial_liquidity := 100,
    start_time := 0, end_time := 100, resolved := false,
    final_outcome := MarketOutcome.unresolved, resolution_time := none,
    price_history := [], movement_type := PriceMovementType.volatile,
    category := Category.other }

/-- A concrete already-resolved market (YES settled at 1.0 at time 50). -/
noncomputable def marketResolved : MarketState :=
  { marketVolatile with
    resolved := true
    final_outcome := MarketOutcome.yes_wins
    resolution_time := some 50
    current_price := 1 }

/-! # Theorems

One theorem (plus witness / counterexample where required) per claim,
with shared helper lemmas in between. -/

/-! ## C1 — portfolio value -/

/-- Counterexample to C1 as stated: for the concrete bot `botA` (cash 100,
one open trade of 10 shares entered at 0.50) and current market price 0.70,
the code's `portfolio_value` is `100 + 10·0.50 = 105`, not the claimed
`cash + Σ shares × current market price = 100 + 10·0.70 = 107`:
`BotState.portfolio_value` (`simulator.py` line 95) multiplies shares by
`t.entry_price`, never by the market's current price. -/
theorem c1_counterexample :
    portfolio_value botA ≠ spec_portfolio_value pricesA botA := by
  norm_num [portfolio_value, spec_portfolio_value, botA, pricesA, tradeA]

/-- C1 (amended): the derived portfolio value equals cash plus
Σ(shares × *entry* price) over open trades; it agrees with the
mark-to-current-market value precisely on price maps that still equal every
open trade's entry price, so a tick that moves an open position's market
price leaves the bot's portfolio value unchanged at the entry-price
valuation. -/
theorem c1_portfolio_value_uses_entry_price (b : BotState) (prices : Nat → ℚ)
    (h : ∀ t ∈ b.open_trades, prices t.market_id = t.entry_price) :
    portfolio_value b
        = b.cash_balance + (b.open_trades.map (fun t => t.shares * t.entry_price)).sum
      ∧ portfolio_value b = spec_portfolio_value prices b := by
  constructor
  · rfl
  · unfold portfolio_value spec_portfolio_value
    have hsum : ∀ l : List SimulatedTrade,
        (∀ t ∈ l, prices t.market_id = t.entry_price) →
        (l.map (fun t => t.shares * t.entry_price)).sum
          = (l.map (fun t => t.shares * prices t.market_id)).sum := by
      intro l
      induction l with
      | nil => intro _; rfl
      | cons t rest ih =>
        intro hl
        simp only [List.map_cons, List.sum_cons,
          hl t (List.mem_cons_self t rest),
          ih (fun u hu => hl u (List.mem_cons_of_mem t hu))]
    rw [hsum b.open_trades h]

/-- Witness for `c1_portfolio_value_uses_entry_price` at `botA` with the
price map that pins every market at the entry price 0.50. -/
theorem c1_portfolio_value_uses_entry_price_witness :
    (∀ t ∈ botA.open_trades, pricesEntry t.market_id = t.entry_price)
      ∧ (portfolio_value botA
            = botA.cash_balance
              + (botA.open_trades.map (fun t => t.shares * t.entry_price)).sum
          ∧ portfolio_value botA = spec_portfolio_value pricesEntry botA) :=
  ⟨by simp [botA, tradeA, pricesEntry],
   c1_portfolio_value_uses_entry_price botA pricesEntry
     (by simp [botA, tradeA, pricesEntry])⟩

/-! ## C2 — swing vs long thresholds -/

/-- Counterexample to C2 as stated: with the default strategy
(`take_profit_pct = 0.40`, `swing_take_profit_pct = 0.12`) and an open
trade at +15% unrealized pnl (entry 0.50, current 0.575), the behavior the
claim describes (`spec_close_decision`) would close a swing trade at its
tighter take-profit, but the engine's actual decision
(`tick_close_decision`, `simulator.py` lines 417-424) keeps the trade open:
the engine reads only `take_profit_pct`/`stop_loss_pct`, and a
`SimulatedTrade` carries no trade type at all, so no threshold ever differs
between trade types. -/
theorem c2_counterexample :
    spec_close_decision {} TradeType.swing (1/2) (23/40) = some CloseReason.take_profit
      ∧ tick_close_decision {} (1/2) (23/40) = none
      ∧ ({} : StrategyConfig).swing_take_profit_pct ≠ ({} : StrategyConfig).take_profit_pct := by
  refine ⟨by norm_num [spec_close_decision], by norm_num [tick_close_decision], by norm_num⟩

/-- C2 (amended): in the engine's position-maintenance phase the
take-profit / stop-loss decision for every open trade uses
`take_profit_pct` and `stop_loss_pct` uniformly — it coincides with the
spec's rule for "long" trades regardless of any trade type, and the
`swing_take_profit_pct` / `swing_stop_loss_pct` fields are never consulted. -/
theorem c2_thresholds_uniform (s : StrategyConfig) (entry_price current_price : ℚ) :
    tick_close_decision s entry_price current_price
      = spec_close_decision s TradeType.long entry_price current_price := by
  rfl

/-! ## C4 — exchange fee on exits -/

/-- Helper: the cash credited by `close_trade` when the trade is found. -/
theorem close_trade_cash (b : BotState) (trade_id : Nat) (exit_price : ℚ)
    (reason : ExitReason) (t : SimulatedTrade)
    (h : b.open_trades.find? (fun u => u.tid == trade_id) = some t) :
    (close_trade b trade_id exit_price reason).cash_balance
      = b.cash_balance
        + (if t.entry_price < exit_price
           then t.shares * exit_price * (1 - EXCHANGE_FEE)
           else t.shares * exit_price) := by
  simp only [close_trade, h, close_proceeds]
  split_ifs with hcmp <;> ring

/-- C4: closing a trade credits `shares × exit_price × (1 − 0.02)` when
`exit_price > entry_price` and `shares × exit_price` otherwise — the 2% fee
is subtracted exactly on profitable exits — and the forced end-of-simulation
liquidation (`_resolve_all_positions`), which routes every remaining open
trade through the same `_close_trade`, credits the identical amount. -/
theorem c4_fee_only_on_profitable_exits
    (b : BotState) (trade_id : Nat) (exit_price : ℚ) (reason : ExitReason)
    (t : SimulatedTrade)
    (h : b.open_trades.find? (fun u => u.tid == trade_id) = some t)
    (b2 : BotState) (t2 : SimulatedTrade) (exit_of : Nat → ℚ)
    (h2 : b2.open_trades = [t2]) :
    (close_trade b trade_id exit_price reason).cash_balance
        = b.cash_balance
          + (if t.entry_price < exit_price
             then t.shares * exit_price * (1 - EXCHANGE_FEE)
             else t.shares * exit_price)
      ∧ (resolve_all b2 exit_of).cash_balance
          = b2.cash_balance
            + (if t2.entry_price < exit_of t2.tid
               then t2.shares * exit_of t2.tid * (1 - EXCHANGE_FEE)
               else t2.shares * exit_of t2.tid) := by
  refine ⟨close_trade_cash b trade_id exit_price reason t h, ?_⟩
  have hfind : [t2].find? (fun u => u.tid == t2.tid) = some t2 := by
    simp [List.find?]
  have hres : resolve_all b2 exit_of
      = close_trade b2 t2.tid (exit_of t2.tid) ExitReason.simulation_end := by
    simp [resolve_all, h2]
  rw [hres]
  exact close_trade_cash b2 t2.tid (exit_of t2.tid) ExitReason.simulation_end t2
    (by rw [h2]; exact hfind)

/-- Witness for `c4_fee_only_on_profitable_exits`: `botA` closing `tradeA`
at exit price 0.75 (a profitable exit, entry 0.50), in both the per-tick
path and the forced-liquidation path. -/
theorem c4_fee_only_on_profitable_exits_witness :
    botA.open_trades.find? (fun u => u.tid == 1) = some tradeA
      ∧ botA.open_trades = [tradeA]
      ∧ ((close_trade botA 1 (3/4) ExitReason.take_profit).cash_balance
            = botA.cash_balance
              + (if tradeA.entry_price < 3/4
                 then tradeA.shares * (3/4) * (1 - EXCHANGE_FEE)
                 else tradeA.shares * (3/4))
          ∧ (resolve_all botA (fun _ => 3/4)).cash_balance
              = botA.cash_balance
                + (if tradeA.entry_price < (fun _ : Nat => (3/4 : ℚ)) tradeA.tid
                   then tradeA.shares * (fun _ : Nat => (3/4 : ℚ)) tradeA.tid * (1 - EXCHANGE_FEE)
                   else tradeA.shares * (fun _ : Nat => (3/4 : ℚ)) tradeA.tid)) :=
  ⟨rfl, rfl,
   c4_fee_only_on_profitable_exits botA 1 (3/4) ExitReason.take_profit tradeA rfl
     botA tradeA (fun _ => 3/4) rfl⟩

/-! ## C5 — growth score -/

/-- Helper: lower bound on `log 1.98`, via `log 2` bounds and
`log (99/100) ≥ -1/99`. -/
theorem log_of_198_pct_lo : (683/1000 : ℝ) < Real.log (99/50) := by
  have hsplit : Real.log ((99:ℝ)/50) = Real.log 2 + Real.log ((99:ℝ)/100) := by
    rw [← Real.log_mul (by norm_num) (by norm_num)]
    norm_num
  have h2 := Real.log_two_gt_d9
  have hinv : Real.log ((99:ℝ)/100) = - Real.log ((100:ℝ)/99) := by
    rw [show ((99:ℝ)/100) = ((100:ℝ)/99)⁻¹ by norm_num, Real.log_inv]
  have hup : Real.log ((100:ℝ)/99) ≤ 100/99 - 1 :=
    Real.log_le_sub_one_of_pos (by norm_num)
  rw [hsplit, hinv]
  linarith

/-- Helper: upper bound on `log 1.98`. -/
theorem log_of_198_pct_hi : Real.log (99/50) < 68315/100000 := by
  have hsplit : Real.log ((99:ℝ)/50) = Real.log 2 + Real.log ((99:ℝ)/100) := by
    rw [← Real.log_mul (by norm_num) (by norm_num)]
    norm_num
  have h2 := Real.log_two_lt_d9
  have hup : Real.log ((99:ℝ)/100) ≤ 99/100 - 1 :=
    Real.log_le_sub_one_of_pos (by norm_num)
  rw [hsplit]
  linarith

/-- Helper: the concrete value of the growth score at price 0.5,
resolution 10 days: `log(1 + 0.98) / 11 = log(99/50) / 11`. -/
theorem compute_g_half_ten : compute_g (1/2) 10 = some (Real.log (99/50) / 11) := by
  have h1 : ¬ ((1/2 : ℝ) ≤ 0 ∨ (1:ℝ) ≤ 1/2 ∨ (10:ℝ) ≤ 0) := by norm_num
  have h2 : ¬ ((10:ℝ) + 1 ≤ 0) := by norm_num
  simp only [compute_g, h1, h2, if_false]
  norm_num

/-- Counterexample to C5 as stated: the value returned at
`price = 0.5, resolution_days = 10` is `log(1.98)/11`, which exceeds the
claimed `≈ 0.0604` by more than 0.001 (it is ≈ 0.0621 — the claim's own
symbolic formula `ln(1 + 0.98)/11` evaluates to 0.0621, not 0.0604). -/
theorem c5_counterexample :
    compute_g (1/2) 10 = some (Real.log (99/50) / 11)
      ∧ (604/10000 : ℝ) + 1/1000 < Real.log (99/50) / 11 := by
  refine ⟨compute_g_half_ten, ?_⟩
  have := log_of_198_pct_lo
  linarith

/-- C5 (amended): `_compute_g` returns `None` exactly when `price ≤ 0`,
`price ≥ 1` or `resolution_days ≤ 0` (the residual `denom ≤ 0` guard can
never fire); at `price = 0.5, resolution_days = 10` with fee 0.02 it returns
the finite positive value `ln(1 + 0.98)/11 = ln(1.98)/11 ≈ 0.0621`
(bracketed here between 0.0620 and 0.06211). -/
theorem c5_compute_g_boundary (price resolution_days : ℝ) :
    (compute_g price resolution_days = none
        ↔ price ≤ 0 ∨ 1 ≤ price ∨ resolution_days ≤ 0)
      ∧ compute_g (1/2) 10 = some (Real.log (99/50) / 11)
      ∧ (620/10000 : ℝ) < Real.log (99/50) / 11
      ∧ Real.log (99/50) / 11 < 6211/100000 := by
  refine ⟨?_, compute_g_half_ten, ?_, ?_⟩
  · by_cases h1 : price ≤ 0 ∨ 1 ≤ price ∨ resolution_days ≤ 0
    · simp [compute_g, h1]
    · have hd : ¬ (resolution_days + 1 ≤ 0) := by
        push_neg at h1 ⊢
        linarith [h1.2.2]
      simp [compute_g, h1, hd]
  · have := log_of_198_pct_lo
    linarith
  · have := log_of_198_pct_hi
    linarith

/-! ## C8 — confidence bounds and monotonicity -/

/-- Helper: every tier bonus is non-negative. -/
theorem bonuses_nonneg (volume liquidity price resolution_days g_score : ℚ) :
    0 ≤ volume_bonus volume ∧ 0 ≤ liquidity_bonus liquidity
      ∧ 0 ≤ price_bonus price ∧ 0 ≤ time_bonus resolution_days
      ∧ 0 ≤ g_bonus g_score := by
  unfold volume_bonus liquidity_bonus price_bonus time_bonus g_bonus
  refine ⟨?_, ?_, ?_, ?_, ?_⟩ <;> split_ifs <;> norm_num

/-- Helper: the volume bonus is non-decreasing in volume. -/
theorem volume_bonus_mono {v v' : ℚ} (h : v ≤ v') :
    volume_bonus v ≤ volume_bonus v' := by
  unfold volume_bonus
  split_ifs <;> linarith

/-- Helper: the liquidity bonus is non-decreasing in liquidity. -/
theorem liquidity_bonus_mono {l l' : ℚ} (h : l ≤ l') :
    liquidity_bonus l ≤ liquidity_bonus l' := by
  unfold liquidity_bonus
  split_ifs <;> linarith

/-- C8: for all inputs the confidence lies in `[0, 0.95]` — the cap holds
no matter which bonus tiers fire — and the confidence is monotonically
non-decreasing in volume and in liquidity with the other inputs fixed. -/
theorem c8_confidence_bounds
    (price volume liquidity resolution_days g_score v' l' : ℚ)
    (hv : volume ≤ v') (hl : liquidity ≤ l') :
    0 ≤ calculate_confidence price volume liquidity resolution_days g_score
      ∧ calculate_confidence price volume liquidity resolution_days g_score ≤ 95/100
      ∧ calculate_confidence price volume liquidity resolution_days g_score
          ≤ calculate_confidence price v' liquidity resolution_days g_score
      ∧ calculate_confidence price volume liquidity resolution_days g_score
          ≤ calculate_confidence price volume l' resolution_days g_score := by
  obtain ⟨hv0, hl0, hp0, ht0, hg0⟩ :=
    bonuses_nonneg volume liquidity price resolution_days g_score
  refine ⟨?_, ?_, ?_, ?_⟩
  · exact le_min (by linarith) (by norm_num)
  · exact min_le_right _ _
  · exact min_le_min (by linarith [volume_bonus_mono hv]) le_rfl
  · exact min_le_min (by linarith [liquidity_bonus_mono hl]) le_rfl

/-- Witness for `c8_confidence_bounds` at price 0.5, volume 6000 (raised to
60000), liquidity 2000 (raised to 6000), 10 resolution days, g-score 0.02. -/
theorem c8_confidence_bounds_witness :
    ((6000 : ℚ) ≤ 60000 ∧ (2000 : ℚ) ≤ 6000)
      ∧ (0 ≤ calculate_confidence (1/2) 6000 2000 10 (1/50)
          ∧ calculate_confidence (1/2) 6000 2000 10 (1/50) ≤ 95/100
          ∧ calculate_confidence (1/2) 6000 2000 10 (1/50)
              ≤ calculate_confidence (1/2) 60000 2000 10 (1/50)
          ∧ calculate_confidence (1/2) 6000 2000 10 (1/50)
              ≤ calculate_confidence (1/2) 6000 6000 10 (1/50)) :=
  ⟨⟨by norm_num, by norm_num⟩,
   c8_confidence_bounds (1/2) 6000 2000 10 (1/50) 60000 6000
     (by norm_num) (by norm_num)⟩

/-! ## C6 — cash non-negativity -/

/-- Helper: closing a trade never debits cash, given a non-negative exit
price and non-negative share counts. -/
theorem close_trade_cash_mono (b : BotState) (trade_id : Nat) (exit_price : ℚ)
    (reason : ExitReason) (he : 0 ≤ exit_price)
    (hsh : ∀ t ∈ b.open_trades, 0 ≤ t.shares) :
    b.cash_balance ≤ (close_trade b trade_id exit_price reason).cash_balance := by
  cases hfind : b.open_trades.find? (fun u => u.tid == trade_id) with
  | none => simp [close_trade, hfind]
  | some t =>
    have hmem : t ∈ b.open_trades := List.mem_of_find?_eq_some hfind
    have hs : 0 ≤ t.shares := hsh t hmem
    have hse : (0:ℚ) ≤ t.shares * exit_price := mul_nonneg hs he
    rw [close_trade_cash b trade_id exit_price reason t hfind]
    split_ifs with hc
    · have hfee : (0:ℚ) ≤ t.shares * exit_price * (1 - EXCHANGE_FEE) :=
        mul_nonneg hse (by norm_num [EXCHANGE_FEE])
      linarith
    · linarith

/-- Helper: a buy whose position value exceeds cash (or is below the
minimum 5) is rejected and leaves the bot unchanged. -/
theorem execute_buy_rejected (b : BotState) (s : StrategyConfig)
    (market_price : ℚ) (market_id : Nat) (confidence slippage : ℚ)
    (h : position_value b s confidence < 5
        ∨ b.cash_balance < position_value b s confidence) :
    execute_buy b s market_price market_id confidence slippage = b := by
  simp only [execute_buy]
  rw [if_pos h]

/-- Helper: a buy preserves non-negative cash and non-negative share
counts on all open trades (under well-formed market price and slippage). -/
theorem execute_buy_inv (b : BotState) (s : StrategyConfig)
    (market_price : ℚ) (market_id : Nat) (confidence slippage : ℚ)
    (hmp : 0 < market_price) (hslip : 0 ≤ slippage)
    (h0 : 0 ≤ b.cash_balance) (hsh : ∀ t ∈ b.open_trades, 0 ≤ t.shares) :
    0 ≤ (execute_buy b s market_price market_id confidence slippage).cash_balance
      ∧ ∀ t ∈ (execute_buy b s market_price market_id confidence slippage).open_trades,
          0 ≤ t.shares := by
  simp only [execute_buy]
  split_ifs with hrej
  · exact ⟨h0, hsh⟩
  · push_neg at hrej
    obtain ⟨h5, hle⟩ := hrej
    have hprice : (0:ℚ) < min (99/100) (market_price * (1 + slippage)) :=
      lt_min (by norm_num) (mul_pos hmp (by linarith))
    constructor
    · simp only
      linarith
    · intro t ht
      simp only [List.mem_append, List.mem_singleton] at ht
      rcases ht with hold | hnew
      · exact hsh t hold
      · subst hnew
        exact div_nonneg (by linarith) (le_of_lt hprice)

/-- Helper: closing a trade preserves non-negative share counts (the open
list only shrinks). -/
theorem close_trade_shares (b : BotState) (trade_id : Nat) (exit_price : ℚ)
    (reason : ExitReason) (hsh : ∀ t ∈ b.open_trades, 0 ≤ t.shares) :
    ∀ t ∈ (close_trade b trade_id exit_price reason).open_trades, 0 ≤ t.shares := by
  cases hfind : b.open_trades.find? (fun u => u.tid == trade_id) with
  | none => simpa [close_trade, hfind] using hsh
  | some t =>
    simp only [close_trade, hfind]
    intro u hu
    exact hsh u (List.mem_of_mem_eraseP hu)

/-- Helper: the cash/shares invariant is preserved along any well-formed
event sequence. -/
theorem run_inv (ops : List BotOp) (b : BotState)
    (h0 : 0 ≤ b.cash_balance) (hsh : ∀ t ∈ b.open_trades, 0 ≤ t.shares)
    (hwf : ∀ op ∈ ops, WFOp op) :
    0 ≤ (run b ops).cash_balance
      ∧ ∀ t ∈ (run b ops).open_trades, 0 ≤ t.shares := by
  induction ops generalizing b with
  | nil => exact ⟨h0, hsh⟩
  | cons op rest ih =>
    have hop : WFOp op := hwf op (List.mem_cons_self op rest)
    have hrest : ∀ o ∈ rest, WFOp o := fun o ho => hwf o (List.mem_cons_of_mem op ho)
    have hstep : 0 ≤ (apply_op b op).cash_balance
        ∧ ∀ t ∈ (apply_op b op).open_trades, 0 ≤ t.shares := by
      cases op with
      | buy s mp mid conf slip =>
        exact execute_buy_inv b s mp mid conf slip hop.1 hop.2 h0 hsh
      | close tid e r =>
        exact ⟨le_trans h0 (close_trade_cash_mono b tid e r hop hsh),
               close_trade_shares b tid e r hsh⟩
    exact ih (apply_op b op) hstep.1 hstep.2 hrest

/-- C6: along any well-formed event sequence a bot's cash balance stays
non-negative; a buy whose position value exceeds the bot's cash is rejected
without changing any bot state; and closing a trade only adds a
non-negative amount to cash. -/
theorem c6_cash_nonneg
    (b0 : BotState) (ops : List BotOp)
    (h0 : 0 ≤ b0.cash_balance) (hsh0 : ∀ t ∈ b0.open_trades, 0 ≤ t.shares)
    (hwf : ∀ op ∈ ops, WFOp op)
    (b1 : BotState) (s : StrategyConfig) (market_price : ℚ) (market_id : Nat)
    (confidence slippage : ℚ)
    (hrej : b1.cash_balance < position_value b1 s confidence)
    (b2 : BotState) (trade_id : Nat) (exit_price : ℚ) (reason : ExitReason)
    (he : 0 ≤ exit_price) (hsh2 : ∀ t ∈ b2.open_trades, 0 ≤ t.shares) :
    0 ≤ (run b0 ops).cash_balance
      ∧ execute_buy b1 s market_price market_id confidence slippage = b1
      ∧ b2.cash_balance ≤ (close_trade b2 trade_id exit_price reason).cash_balance :=
  ⟨(run_inv ops b0 h0 hsh0 hwf).1,
   execute_buy_rejected b1 s market_price market_id confidence slippage (Or.inr hrej),
   close_trade_cash_mono b2 trade_id exit_price reason he hsh2⟩

/-- Witness for `c6_cash_nonneg`: a fresh default bot running `opsA`
(a buy then a close); the rejected buy is `strategyB` (which sizes a
position of 20) against `botB` (10 in cash); the close is `botA` closing
`tradeA` at exit price 1. -/
theorem c6_cash_nonneg_witness :
    (0 ≤ ({} : BotState).cash_balance
        ∧ (∀ t ∈ ({} : BotState).open_trades, 0 ≤ t.shares)
        ∧ (∀ op ∈ opsA, WFOp op)
        ∧ botB.cash_balance < position_value botB strategyB 1
        ∧ (0:ℚ) ≤ 1
        ∧ (∀ t ∈ botA.open_trades, 0 ≤ t.shares))
      ∧ (0 ≤ (run {} opsA).cash_balance
          ∧ execute_buy botB strategyB (1/2) 0 1 0 = botB
          ∧ botA.cash_balance ≤ (close_trade botA 1 1 ExitReason.resolution).cash_balance) :=
  ⟨⟨by norm_num,
    by simp,
    by simp only [opsA, List.mem_cons, List.not_mem_nil, or_false, WFOp]
       rintro op (rfl | rfl) <;> norm_num [WFOp],
    by norm_num [botB, strategyB, position_value],
    by norm_num,
    by simp only [botA, List.mem_singleton]
       rintro t rfl
       norm_num [tradeA]⟩,
   c6_cash_nonneg {} opsA (by norm_num) (by simp)
     (by simp only [opsA, List.mem_cons, List.not_mem_nil, or_false, WFOp]
         rintro op (rfl | rfl) <;> norm_num [WFOp])
     botB strategyB (1/2) 0 1 0
     (by norm_num [botB, strategyB, position_value])
     botA 1 1 ExitReason.resolution (by norm_num)
     (by simp only [botA, List.mem_singleton]
         rintro t rfl
         norm_num [tradeA])⟩

/-! ## C10 — trade accounting -/

/-- Helper: win/loss counters written by a successful close: the winner
counter is bumped when `pnl > 0`, otherwise the loser counter is. -/
theorem close_trade_win_lose (b : BotState) (trade_id : Nat) (exit_price : ℚ)
    (reason : ExitReason) (t : SimulatedTrade)
    (h : b.open_trades.find? (fun u => u.tid == trade_id) = some t) :
    (close_trade b trade_id exit_price reason).winning_trades
        = (if 0 < trade_pnl t exit_price then b.winning_trades + 1 else b.winning_trades)
      ∧ (close_trade b trade_id exit_price reason).losing_trades
        = (if 0 < trade_pnl t exit_price then b.losing_trades else b.losing_trades + 1)
      ∧ (close_trade b trade_id exit_price reason).total_trades = b.total_trades := by
  simp [close_trade, h]

/-- Helper: a buy either rejects (state unchanged) or opens exactly one
trade and increments `total_trades` exactly once, leaving the win/loss
counters alone. -/
theorem execute_buy_acct (b : BotState) (s : StrategyConfig) (market_price : ℚ)
    (market_id : Nat) (confidence slippage : ℚ) :
    execute_buy b s market_price market_id confidence slippage = b
      ∨ ((execute_buy b s market_price market_id confidence slippage).total_trades
            = b.total_trades + 1
          ∧ (execute_buy b s market_price market_id confidence slippage).open_trades.length
            = b.open_trades.length + 1
          ∧ (execute_buy b s market_price market_id confidence slippage).winning_trades
            = b.winning_trades
          ∧ (execute_buy b s market_price market_id confidence slippage).losing_trades
            = b.losing_trades) := by
  simp only [execute_buy]
  split_ifs with h
  · exact Or.inl rfl
  · exact Or.inr (by simp)

/-- Helper: closing preserves the accounting identity
`total = winning + losing + #open`. -/
theorem close_trade_acct (b : BotState) (trade_id : Nat) (exit_price : ℚ)
    (reason : ExitReason)
    (hinv : b.total_trades = b.winning_trades + b.losing_trades + b.open_trades.length) :
    (close_trade b trade_id exit_price reason).total_trades
      = (close_trade b trade_id exit_price reason).winning_trades
        + (close_trade b trade_id exit_price reason).losing_trades
        + (close_trade b trade_id exit_price reason).open_trades.length := by
  cases hfind : b.open_trades.find? (fun u => u.tid == trade_id) with
  | none => simpa [close_trade, hfind] using hinv
  | some t =>
    have hmem : t ∈ b.open_trades := List.mem_of_find?_eq_some hfind
    have htrue := List.find?_some hfind
    have hlen : (b.open_trades.eraseP (fun u => u.tid == trade_id)).length
        = b.open_trades.length - 1 := List.length_eraseP_of_mem hmem htrue
    have hpos : 0 < b.open_trades.length := List.length_pos_of_mem hmem
    simp only [close_trade, hfind]
    split_ifs <;> simp only [hlen] <;> omega

/-- Helper: the accounting identity is preserved along any event
sequence. -/
theorem run_acct (ops : List BotOp) (b : BotState)
    (hinv : b.total_trades = b.winning_trades + b.losing_trades + b.open_trades.length) :
    (run b ops).total_trades
      = (run b ops).winning_trades + (run b ops).losing_trades
        + (run b ops).open_trades.length := by
  induction ops generalizing b with
  | nil => exact hinv
  | cons op rest ih =>
    refine ih (apply_op b op) ?_
    cases op with
    | buy s mp mid conf slip =>
      rcases execute_buy_acct b s mp mid conf slip with heq | ⟨h1, h2, h3, h4⟩
      · simpa [apply_op, heq] using hinv
      · simp only [apply_op, h1, h2, h3, h4]
        omega
    | close tid e r => exact close_trade_acct b tid e r hinv

/-- Helper: the forced liquidation closes every open trade (each close
finds and removes the head of the remaining snapshot), leaving no open
trades, adding exactly one win-or-loss per former open trade, and leaving
`total_trades` untouched. -/
theorem resolve_all_closes_everything (exit_of : Nat → ℚ) :
    ∀ (l : List SimulatedTrade) (b : BotState), b.open_trades = l →
      (resolve_all b exit_of).open_trades = []
        ∧ (resolve_all b exit_of).winning_trades + (resolve_all b exit_of).losing_trades
            = b.winning_trades + b.losing_trades + l.length
        ∧ (resolve_all b exit_of).total_trades = b.total_trades := by
  intro l
  induction l with
  | nil =>
    intro b hb
    simp [resolve_all, hb]
  | cons t rest ih =>
    intro b hb
    have hfind : b.open_trades.find? (fun u => u.tid == t.tid) = some t := by
      rw [hb]
      exact List.find?_cons_of_pos _ (by simp)
    set b1 := close_trade b t.tid (exit_of t.tid) ExitReason.simulation_end with hb1
    have hb1open : b1.open_trades = rest := by
      rw [hb1]
      simp only [close_trade, hfind]
      rw [hb]
      exact List.eraseP_cons_of_pos (by simp)
    have hcnt := close_trade_win_lose b t.tid (exit_of t.tid)
      ExitReason.simulation_end t hfind
    have hfold : resolve_all b exit_of = resolve_all b1 exit_of := by
      simp only [resolve_all, hb, hb1open, List.map_cons, List.foldl_cons]
    obtain ⟨h1, h2, h3⟩ := ih b1 hb1open
    refine ⟨by rw [hfold]; exact h1, ?_, ?_⟩
    · rw [hfold, h2]
      obtain ⟨hw, hl, -⟩ := hcnt
      rw [hw, hl]
      split_ifs <;> simp <;> omega
    · rw [hfold, h3, hcnt.2.2]

/-- C10: after the forced liquidation pass every open trade has been
closed and `total_trades = winning_trades + losing_trades`; a buy either
rejects or increments `total_trades` exactly once while opening exactly one
trade; every successful close increments exactly one of the two counters —
the winner counter iff `pnl > 0`, the loser counter otherwise (a pnl of
exactly zero counts as a loss). -/
theorem c10_trade_accounting
    (b0 : BotState) (ops : List BotOp) (exit_of : Nat → ℚ)
    (hinv : b0.total_trades
        = b0.winning_trades + b0.losing_trades + b0.open_trades.length)
    (b1 : BotState) (s : StrategyConfig) (market_price : ℚ) (market_id : Nat)
    (confidence slippage : ℚ)
    (b2 : BotState) (tid2 : Nat) (e2 : ℚ) (r2 : ExitReason) (t2 : SimulatedTrade)
    (hf2 : b2.open_trades.find? (fun u => u.tid == tid2) = some t2)
    (hpnl2 : trade_pnl t2 e2 ≤ 0)
    (b3 : BotState) (tid3 : Nat) (e3 : ℚ) (r3 : ExitReason) (t3 : SimulatedTrade)
    (hf3 : b3.open_trades.find? (fun u => u.tid == tid3) = some t3)
    (hpnl3 : 0 < trade_pnl t3 e3) :
    ((resolve_all (run b0 ops) exit_of).open_trades = []
        ∧ (resolve_all (run b0 ops) exit_of).total_trades
            = (resolve_all (run b0 ops) exit_of).winning_trades
              + (resolve_all (run b0 ops) exit_of).losing_trades)
      ∧ (execute_buy b1 s market_price market_id confidence slippage = b1
          ∨ ((execute_buy b1 s market_price market_id confidence slippage).total_trades
                = b1.total_trades + 1
              ∧ (execute_buy b1 s market_price market_id confidence slippage).open_trades.length
                = b1.open_trades.length + 1))
      ∧ ((close_trade b2 tid2 e2 r2).losing_trades = b2.losing_trades + 1
          ∧ (close_trade b2 tid2 e2 r2).winning_trades = b2.winning_trades)
      ∧ ((close_trade b3 tid3 e3 r3).winning_trades = b3.winning_trades + 1
          ∧ (close_trade b3 tid3 e3 r3).losing_trades = b3.losing_trades) := by
  have hrun := run_acct ops b0 hinv
  obtain ⟨hempty, hsum, htot⟩ :=
    resolve_all_closes_everything exit_of (run b0 ops).open_trades (run b0 ops) rfl
  have hc2 := close_trade_win_lose b2 tid2 e2 r2 t2 hf2
  have hc3 := close_trade_win_lose b3 tid3 e3 r3 t3 hf3
  refine ⟨⟨hempty, by omega⟩, ?_, ?_, ?_⟩
  · rcases execute_buy_acct b1 s market_price market_id confidence slippage with
      heq | ⟨ha, hb, -, -⟩
    · exact Or.inl heq
    · exact Or.inr ⟨ha, hb⟩
  · rw [hc2.1, hc2.2.1, if_neg (not_lt.mpr hpnl2), if_neg (not_lt.mpr hpnl2)]
    exact ⟨rfl, rfl⟩
  · rw [hc3.1, hc3.2.1, if_pos hpnl3, if_pos hpnl3]
    exact ⟨rfl, rfl⟩

/-- Witness for `c10_trade_accounting`: a default bot running `opsA` then
liquidating at exit price 1; `botA` closing `tradeA` at exit 0.50
(pnl = 0, counted as a loss) and at exit 0.75 (pnl = 2.35 > 0, a win). -/
theorem c10_trade_accounting_witness :
    (({} : BotState).total_trades
        = ({} : BotState).winning_trades + ({} : BotState).losing_trades
          + ({} : BotState).open_trades.length
      ∧ botA.open_trades.find? (fun u => u.tid == 1) = some tradeA
      ∧ trade_pnl tradeA (1/2) ≤ 0
      ∧ 0 < trade_pnl tradeA (3/4))
      ∧ (((resolve_all (run {} opsA) (fun _ => 1)).open_trades = []
            ∧ (resolve_all (run {} opsA) (fun _ => 1)).total_trades
                = (resolve_all (run {} opsA) (fun _ => 1)).winning_trades
                  + (resolve_all (run {} opsA) (fun _ => 1)).losing_trades)
          ∧ (execute_buy botB strategyB (1/2) 0 1 0 = botB
              ∨ ((execute_buy botB strategyB (1/2) 0 1 0).total_trades
                    = botB.total_trades + 1
                  ∧ (execute_buy botB strategyB (1/2) 0 1 0).open_trades.length
                    = botB.open_trades.length + 1))
          ∧ ((close_trade botA 1 (1/2) ExitReason.simulation_end).losing_trades
                = botA.losing_trades + 1
              ∧ (close_trade botA 1 (1/2) ExitReason.simulation_end).winning_trades
                = botA.winning_trades)
          ∧ ((close_trade botA 1 (3/4) ExitReason.take_profit).winning_trades
                = botA.winning_trades + 1
              ∧ (close_trade botA 1 (3/4) ExitReason.take_profit).losing_trades
                = botA.losing_trades)) :=
  ⟨⟨rfl, rfl,
    by norm_num [trade_pnl, close_proceeds, tradeA],
    by norm_num [trade_pnl, close_proceeds, tradeA, EXCHANGE_FEE]⟩,
   c10_trade_accounting {} opsA (fun _ => 1) rfl
     botB strategyB (1/2) 0 1 0
     botA 1 (1/2) ExitReason.simulation_end tradeA rfl
     (by norm_num [trade_pnl, close_proceeds, tradeA])
     botA 1 (3/4) ExitReason.take_profit tradeA rfl
     (by norm_num [trade_pnl, close_proceeds, tradeA, EXCHANGE_FEE])⟩

/-! ## C9 — strategy generation -/

/-- Helper: reindexing preserves length. -/
theorem reindex_from_length :
    ∀ (k : Nat) (l : List StrategyConfig), (reindex_from k l).length = l.length := by
  intro k l
  induction l generalizing k with
  | nil => rfl
  | cons s rest ih => simp [reindex_from, ih]

/-- Helper: reindexing from `k` makes the id sequence exactly
`k, k+1, ..., k + length - 1`. -/
theorem reindex_from_ids :
    ∀ (k : Nat) (l : List StrategyConfig),
      (reindex_from k l).map (fun c => c.id) = List.range' k l.length := by
  intro k l
  induction l generalizing k with
  | nil => rfl
  | cons s rest ih =>
    simp [reindex_from, List.range', ih]

/-- Helper: reindexing does not change how many configs carry a given
archetype label. -/
theorem reindex_from_countP (a : String) :
    ∀ (k : Nat) (l : List StrategyConfig),
      (reindex_from k l).countP (fun c => c.strategy_type == a)
        = l.countP (fun c => c.strategy_type == a) := by
  intro k l
  induction l generalizing k with
  | nil => rfl
  | cons s rest ih => simp [reindex_from, List.countP_cons, ih]

/-- Helper: archetype-label counts of the generated blocks, one summand per
`(archetype, instance count)` pair. -/
theorem blocks_countP (gen : String → Nat → StrategyConfig) (a : String) :
    ∀ L : List (String × Nat),
      (L.flatMap (fun p => (List.range p.2).map
          (fun j => { gen p.1 j with strategy_type := p.1 }))).countP
          (fun c => c.strategy_type == a)
        = (L.map (fun p => if p.1 == a then p.2 else 0)).sum := by
  intro L
  induction L with
  | nil => rfl
  | cons p rest ih =>
    simp only [List.flatMap_cons, List.countP_append, List.map_cons, List.sum_cons, ih]
    have hproj : (fun j : Nat =>
        ({ gen p.1 j with strategy_type := p.1 } : StrategyConfig).strategy_type == a)
        = (fun _ : Nat => p.1 == a) := rfl
    rw [List.countP_map]
    cases h : p.1 == a with
    | false =>
      simp only [Function.comp_def, hproj, h, if_false]
      simp [List.countP_false]
    | true =>
      simp only [Function.comp_def, hproj, h, if_true]
      simp [List.countP_true]

/-- Helper: `Σ_{i<n} (b + [i<e]) = n·b + min e n`. -/
theorem sum_base_plus_ite (b e : Nat) :
    ∀ n : Nat, (((List.range n).map (fun i => b + if i < e then 1 else 0)).sum)
      = n * b + min e n := by
  intro n
  induction n with
  | zero => simp
  | succ m ih =>
    rw [List.range_succ]
    simp only [List.map_append, List.sum_append, List.map_cons, List.map_nil,
      List.sum_cons, List.sum_nil, ih, Nat.succ_mul, Nat.min_def]
    split_ifs <;> omega

/-- Helper: the per-archetype instance counts sum to `count`. -/
theorem per_archetype_counts_sum (count : Nat) :
    (per_archetype_counts count).sum = count := by
  have h8 : ARCHETYPE_NAMES.length = 8 := rfl
  simp only [per_archetype_counts, h8]
  rw [sum_base_plus_ite]
  have hlt : count % 8 < 8 := Nat.mod_lt _ (by norm_num)
  have hdm := Nat.div_add_mod count 8
  rw [min_eq_left (le_of_lt hlt)]
  omega

/-- Helper: the length of the generated block list is `count`. -/
theorem blocks_length (gen : String → Nat → StrategyConfig) (count : Nat) :
    ((ARCHETYPE_NAMES.zip (per_archetype_counts count)).flatMap
        (fun p => (List.range p.2).map
          (fun j => { gen p.1 j with strategy_type := p.1 }))).length = count := by
  rw [List.length_flatMap]
  have hzip : (List.map (List.length ∘ fun p : String × Nat =>
      (List.range p.2).map
        (fun j => ({ gen p.1 j with strategy_type := p.1 } : StrategyConfig)))
      (ARCHETYPE_NAMES.zip (per_archetype_counts count)))
      = List.map Prod.snd (ARCHETYPE_NAMES.zip (per_archetype_counts count)) := by
    simp [Function.comp_def]
  rw [hzip, List.map_snd_zip, per_archetype_counts_sum]
  simp [per_archetype_counts]

/-- C9: `generate_strategies` (for any field-sampling oracle and any
shuffle that permutes its input) returns exactly `count` configurations;
after the final shuffle-and-reindex their ids are exactly `1, ..., count`
(no duplicates); the per-archetype instance counts are exactly
`count / 8` plus one extra for the first `count % 8` archetypes in table
order; and hence every archetype receives either `⌊count/8⌋` or
`⌊count/8⌋ + 1` instances. -/
theorem c9_generate_strategies
    (gen : String → Nat → StrategyConfig)
    (shuffle : List StrategyConfig → List StrategyConfig) (count : Nat)
    (hs : ∀ l : List StrategyConfig, (shuffle l).Perm l) :
    (generate_strategies gen shuffle count).length = count
      ∧ (generate_strategies gen shuffle count).map (fun c => c.id)
          = List.range' 1 count
      ∧ ARCHETYPE_NAMES.map (fun a =>
            (generate_strategies gen shuffle count).countP
              (fun c => c.strategy_type == a))
          = per_archetype_counts count
      ∧ ((per_archetype_counts count).all
            (fun x => x == count / 8 || x == count / 8 + 1)) = true := by
  have hblen := blocks_length gen count
  have hlen : (generate_strategies gen shuffle count).length = count := by
    simp only [generate_strategies]
    rw [reindex_from_length, (hs _).length_eq, reindex_from_length, hblen]
  refine ⟨hlen, ?_, ?_, ?_⟩
  · simp only [generate_strategies]
    rw [reindex_from_ids, (hs _).length_eq, reindex_from_length, hblen]
  · have hcnt : ∀ a, (generate_strategies gen shuffle count).countP
        (fun c => c.strategy_type == a)
        = ((ARCHETYPE_NAMES.zip (per_archetype_counts count)).map
            (fun p => if p.1 == a then p.2 else 0)).sum := by
      intro a
      simp only [generate_strategies]
      rw [reindex_from_countP, (hs _).countP_eq, reindex_from_countP,
        blocks_countP]
    rw [List.map_congr_left (fun a _ => hcnt a)]
    have hrange : List.range 8 = [0, 1, 2, 3, 4, 5, 6, 7] := rfl
    simp only [per_archetype_counts, ARCHETYPE_NAMES, List.length_cons,
      List.length_nil, hrange]
    simp [List.zip]
  · have h8 : ARCHETYPE_NAMES.length = 8 := rfl
    simp only [List.all_eq_true, per_archetype_counts, h8]
    intro x hx
    simp only [List.mem_map, List.mem_range] at hx
    obtain ⟨i, -, rfl⟩ := hx
    split_ifs <;> simp

/-- Witness for `c9_generate_strategies`: `count = 10` with a constant
field-sampling oracle and the identity shuffle. -/
theorem c9_generate_strategies_witness :
    (∀ l : List StrategyConfig, (id l).Perm l)
      ∧ ((generate_strategies (fun _ _ => {}) id 10).length = 10
          ∧ (generate_strategies (fun _ _ => {}) id 10).map (fun c => c.id)
              = List.range' 1 10
          ∧ ARCHETYPE_NAMES.map (fun a =>
                (generate_strategies (fun _ _ => {}) id 10).countP
                  (fun c => c.strategy_type == a))
              = per_archetype_counts 10
          ∧ ((per_archetype_counts 10).all
                (fun x => x == 10 / 8 || x == 10 / 8 + 1)) = true) :=
  ⟨fun l => List.Perm.refl l,
   c9_generate_strategies (fun _ _ => {}) id 10 (fun l => List.Perm.refl l)⟩

/-! ## C3 — volatile shock inflation is dead code -/

/-- Helper: `round(0.53, 4) = 0.53`. -/
theorem round4_53 : round4 (53/100) = 53/100 := by
  unfold round4
  rw [show ((53:ℝ)/100 * 10000) = ((5300:ℤ):ℝ) by norm_num, round_intCast]
  norm_num

/-- Helper: the pre-draw step volatility of `marketVolatile` observed at
its start with a 24-hour step is exactly `0.3 × 0.1 = 0.03` (the
`sqrt 24` factors cancel and the time factor is 1). -/
theorem step_volatility_marketVolatile : step_volatility marketVolatile 0 24 = 3/100 := by
  have h24 : Real.sqrt 24 ≠ 0 := Real.sqrt_ne_zero'.mpr (by norm_num)
  simp only [step_volatility, marketVolatile, category_volatility]
  rw [show ((100:ℝ) - 0) / (100 - 0) = 1 by norm_num]
  rw [show (1:ℝ) + (1 - 1) * (5/10) = 1 by norm_num, mul_one,
    div_mul_cancel₀ _ h24]
  norm_num

/-- Helper: for any unresolved, unexpired market of the `volatile`
archetype, the applied price change is `step_volatility × z` — the
post-draw reassignment `step_volatility *= 1.5` (source line 372) never
reaches the shock that is applied. -/
theorem volatile_shock_uses_preinflation_sigma (m : MarketState)
    (current_time time_step_hours : ℝ) (r : Rand)
    (hres : m.resolved = false) (hend : ¬ (m.end_time ≤ current_time))
    (hvol : m.movement_type = PriceMovementType.volatile) :
    (simulate_price_movement m current_time time_step_hours r).current_price
      = round4 (max (1/100) (min (99/100)
          (m.current_price + step_volatility m current_time time_step_hours * r.z))) := by
  simp [simulate_price_movement, step_volatility, hres, hend, hvol]

/-- C3 (evaluating the code at the failing input): for the concrete
volatile market `marketVolatile` (category volatility 0.3, at its start
time, 24-hour step, so base step volatility 0.03) and a one-sigma
standard-normal draw, the price moves to `0.50 + 0.03 = 0.53` — the shock
applied has standard deviation equal to the *uninflated* step volatility —
and not to `0.50 + 1.5 × 0.03 = 0.545` as the claimed 1.5× inflation would
give: `step_volatility *= 1.5` runs only after `random_change` has already
been drawn, and the inflated value is never used. -/
theorem c3_volatile_inflation_never_applied :
    (simulate_price_movement marketVolatile 0 24 randUnit).current_price
        = marketVolatile.current_price + step_volatility marketVolatile 0 24 * randUnit.z
      ∧ (simulate_price_movement marketVolatile 0 24 randUnit).current_price = 53/100
      ∧ (simulate_price_movement marketVolatile 0 24 randUnit).current_price
          ≠ marketVolatile.current_price
            + (3/2) * (step_volatility marketVolatile 0 24 * randUnit.z) := by
  have hval : (simulate_price_movement marketVolatile 0 24 randUnit).current_price
      = 53/100 := by
    rw [volatile_shock_uses_preinflation_sigma marketVolatile 0 24 randUnit rfl
      (by norm_num [marketVolatile]) rfl]
    rw [step_volatility_marketVolatile]
    rw [show marketVolatile.current_price + 3/100 * randUnit.z = 53/100 by
      norm_num [marketVolatile, randUnit]]
    rw [min_eq_right (by norm_num), max_eq_right (by norm_num)]
    exact round4_53
  refine ⟨?_, hval, ?_⟩
  · rw [hval, step_volatility_marketVolatile]
    norm_num [marketVolatile, randUnit]
  · rw [hval, step_volatility_marketVolatile]
    norm_num [marketVolatile, randUnit]

/-! ## C7 — resolved markets are frozen -/

/-- C7: once a market is resolved, any number of further
`simulate_price_movement` calls — at any current times and step sizes, with
any random draws — leave the whole market state (in particular
`current_price`, `final_outcome`, `resolution_time` and the price history)
unchanged: the function returns immediately on `market.resolved`. -/
theorem c7_resolution_idempotent (m : MarketState)
    (steps : List (ℝ × ℝ × Rand)) (hres : m.resolved = true) :
    steps.foldl (fun s q => simulate_price_movement s q.1 q.2.1 q.2.2) m = m := by
  induction steps with
  | nil => rfl
  | cons q rest ih =>
    have hstep : simulate_price_movement m q.1 q.2.1 q.2.2 = m := by
      simp [simulate_price_movement, hres]
    rw [List.foldl_cons, hstep]
    exact ih

/-- Witness for `c7_resolution_idempotent`: the concrete resolved market
`marketResolved` advanced twice more. -/
theorem c7_resolution_idempotent_witness :
    marketResolved.resolved = true
      ∧ [((50:ℝ), (4:ℝ), randUnit), ((54:ℝ), (4:ℝ), randZero)].foldl
          (fun s q => simulate_price_movement s q.1 q.2.1 q.2.2) marketResolved
        = marketResolved :=
  ⟨rfl, c7_resolution_idempotent marketResolved
    [((50:ℝ), (4:ℝ), randUnit), ((54:ℝ), (4:ℝ), randZero)] rfl⟩

end MC
